import Mathlib

/-!
Verification of the gitness push-time secret-scanning gate and blob stream
client, shallowly embedded from:
  - app/api/controller/githook/pre_receive_scan_secrets.go
  - git/api/blob.go

External collaborators (settings store, fallback-SHA discovery, the scanning
capability, finding rendering) are parameters of the embedding; the control
flow, wrapping of errors, and data threading mirror the Go source.  Each
collaborator invocation made by the gate is recorded in an event trace so that
call-count properties can be stated.
-/

namespace Gitness

/-- `types.NilSHA`: the reserved all-zero object id. -/
def NilSHA : String := "0000000000000000000000000000000000000000"

/-- One reference update of a push (`hook.ReferenceUpdate`): old and new object
ids rendered as strings (`.String()` in the source). -/
structure ReferenceUpdate where
  ref : String
  old : String
  new : String
  deriving DecidableEq, Repr

/-- Push-scoped environment (`hook.Environment`): alternate object dirs. -/
structure Environment where
  alternateObjectDirs : List String
  deriving DecidableEq, Repr

/-- `types.GithookPreReceiveInput`: the fields the gate reads. -/
structure GithookPreReceiveInput where
  refUpdates : List ReferenceUpdate
  environment : Environment
  deriving DecidableEq, Repr

/-- `types.Repository`: the fields the gate reads. -/
structure Repository where
  id : Int
  gitUID : String
  deriving DecidableEq, Repr

/-- `git.ReadParams` as filled by `scanSecretsInternal`. -/
structure ReadParams where
  repoUID : String
  alternateObjectDirs : List String
  deriving DecidableEq, Repr

/-- `git.ScanSecretsParams` as filled by `scanSecretsInternal`. -/
structure ScanSecretsParams where
  readParams : ReadParams
  baseRev : String
  rev : String
  deriving DecidableEq, Repr

/-- `hook.Output`: ordered message list plus optional blocking error string. -/
structure HookOutput where
  messages : List String
  error : Option String
  deriving DecidableEq, Repr

/-- `scanSecretsResult` of the Go source, findings of opaque type `F`. -/
structure scanSecretsResult (F : Type) where
  findings : List F
  deriving DecidableEq, Repr

/-- `(*scanSecretsResult).HasResults`: `len(r.findings) > 0`. -/
def scanSecretsResult.HasResults {F : Type} (r : scanSecretsResult F) : Bool :=
  r.findings.length > 0

/-- The external collaborators the gate calls, with error type `E` and opaque
finding type `F`.  `settingsRepoGet` is the result of
`settings.RepoGet(..., KeySecretScanningEnabled, ...)`;
`getBaseSHAForScanningChanges` returns `(fallbackSHA, fallbackAvailable)`;
`scanSecretsCall` is `rgit.ScanSecrets`; `renderFinding` is the formatting of
one finding into its human-readable block. -/
structure Collaborators (E F : Type) where
  settingsRepoGet : Except E Bool
  getBaseSHAForScanningChanges :
    Environment → List ReferenceUpdate → ReferenceUpdate → Except E (String × Bool)
  scanSecretsCall : ScanSecretsParams → Except E (List F)
  renderFinding : F → String

/-- Errors of `scanSecretsInternal`, mirroring the two `fmt.Errorf` wrap
sites (`failed to get fallback sha: %w`, `failed to detect secret leaks: %w`). -/
inductive InternalErr (E : Type) where
  | fallbackFailed (e : E)
  | detectFailed (e : E)
  deriving DecidableEq, Repr

/-- Errors of `scanSecrets`, mirroring its two `fmt.Errorf` wrap sites
(`failed to check settings ...: %w`, `failed to scan for git leaks: %w`). -/
inductive GateErr (E : Type) where
  | settingsFailed (e : E)
  | scanFailed (e : InternalErr E)
  deriving DecidableEq, Repr

/-- One collaborator invocation performed by the gate: either a call to
`GetBaseSHAForScanningChanges` or a call to `rgit.ScanSecrets`, each tagged
with the reference update being processed. -/
inductive GateEvent where
  | fallbackCall (allUpdates : List ReferenceUpdate) (cur : ReferenceUpdate)
  | scanCall (cur : ReferenceUpdate) (params : ScanSecretsParams)
  deriving DecidableEq, Repr

/-- The reference update an event was generated for. -/
def GateEvent.cur : GateEvent → ReferenceUpdate
  | .fallbackCall _ ru => ru
  | .scanCall ru _ => ru

/-- Whether an event is a fallback-discovery call. -/
def GateEvent.isFallback : GateEvent → Bool
  | .fallbackCall _ _ => true
  | .scanCall _ _ => false

/-- Number of fallback-discovery calls in a trace. -/
def fallbackCount (tr : List GateEvent) : Nat :=
  tr.countP GateEvent.isFallback

/-- The base revisions of the scan calls made for newly created references
(`old == NilSHA`) in a trace. -/
def newRefScanBases (tr : List GateEvent) : List String :=
  tr.filterMap fun e =>
    match e with
    | .scanCall ru p => if ru.old = NilSHA then some p.baseRev else none
    | .fallbackCall _ _ => none

/-- The `(cur, params)` pairs of the scan calls in a trace. -/
def scanCalls (tr : List GateEvent) : List (ReferenceUpdate × ScanSecretsParams) :=
  tr.filterMap fun e =>
    match e with
    | .scanCall ru p => some (ru, p)
    | .fallbackCall _ _ => none

/-- The loop body of `scanSecretsInternal` over the remaining reference
updates.  `fb` is `baseRevFallBack` (`nil` pointer ↦ `none`), `acc` is
`res.findings`.  Returns the result together with the trace of collaborator
calls performed, mirroring the Go control flow:
deletions (`new == NilSHA`) are skipped; for a newly created reference
(`old.IsNil()`) the fallback is resolved once and memoized (available ↦ the
fallback sha, unavailable ↦ `""`); otherwise `baseRev = old + "^{commit}"`;
the scan is invoked with `rev = new + "^{commit}"`; errors abort the loop. -/
def scanSecretsLoop {E F : Type} (C : Collaborators E F) (repo : Repository)
    (env : Environment) (allUpdates : List ReferenceUpdate) :
    List ReferenceUpdate → Option String → List F →
      Except (InternalErr E) (List F) × List GateEvent
  | [], _, acc => (.ok acc, [])
  | ru :: rest, fb, acc =>
    if ru.new = NilSHA then
      -- skip deleted reference
      scanSecretsLoop C repo env allUpdates rest fb acc
    else
      let rev := ru.new ++ "^{commit}"
      match
          (if ru.old = NilSHA then
            match fb with
            | some v => Except.ok (v, fb, false)
            | none =>
              match C.getBaseSHAForScanningChanges env allUpdates ru with
              | .error e => Except.error e
              | .ok (fallbackSHA, fallbackAvailable) =>
                let v := if fallbackAvailable then fallbackSHA else ""
                Except.ok (v, some v, true)
          else
            Except.ok (ru.old ++ "^{commit}", fb, false) :
            Except E (String × Option String × Bool)) with
      | .error e =>
        (.error (.fallbackFailed e), [.fallbackCall allUpdates ru])
      | .ok (baseRev, fb', calledFallback) =>
        let evs : List GateEvent :=
          if calledFallback then [.fallbackCall allUpdates ru] else []
        let params : ScanSecretsParams :=
          { readParams :=
              { repoUID := repo.gitUID
                alternateObjectDirs := env.alternateObjectDirs }
            baseRev := baseRev
            rev := rev }
        match C.scanSecretsCall params with
        | .error e =>
          (.error (.detectFailed e), evs ++ [.scanCall ru params])
        | .ok findings =>
          let acc' := if findings.length = 0 then acc else acc ++ findings
          let res := scanSecretsLoop C repo env allUpdates rest fb' acc'
          (res.1, evs ++ [.scanCall ru params] ++ res.2)

/-- `scanSecretsInternal` of the Go source: iterate the push's reference
updates with an unresolved fallback memo and empty findings. -/
def scanSecretsInternal {E F : Type} (C : Collaborators E F) (repo : Repository)
    (inp : GithookPreReceiveInput) :
    Except (InternalErr E) (scanSecretsResult F) × List GateEvent :=
  let res :=
    scanSecretsLoop C repo inp.environment inp.refUpdates inp.refUpdates none []
  (res.1.map fun fs => { findings := fs }, res.2)

/-- Modelled from the spec: `printScanSecretsFindings` is not under src/.
Per the spec's Render step it formats the findings into the output's message
sequence, one human-readable block per finding, appended in push order. -/
def printScanSecretsFindings {F : Type} (render : F → String)
    (output : HookOutput) (findings : List F) : HookOutput :=
  { output with messages := output.messages ++ findings.map render }

/-- The fixed user-facing blocking message set by `scanSecrets`. -/
def blockedMessage : String := "Changes blocked by security scan results"

/-- `(*Controller).scanSecrets` of the Go source: settings gate, scan, and
render.  Returns the error result, the final output value, and the trace of
collaborator calls performed. -/
def scanSecrets {E F : Type} (C : Collaborators E F) (repo : Repository)
    (inp : GithookPreReceiveInput) (output : HookOutput) :
    Except (GateErr E) Unit × HookOutput × List GateEvent :=
  match C.settingsRepoGet with
  | .error err => (.error (.settingsFailed err), output, [])
  | .ok scanningEnabled =>
    if !scanningEnabled then
      (.ok (), output, [])
    else
      match scanSecretsInternal C repo inp with
      | (.error e, tr) => (.error (.scanFailed e), output, tr)
      | (.ok scanResult, tr) =>
        if !scanResult.HasResults then
          (.ok (), output, tr)
        else
          let output1 := printScanSecretsFindings C.renderFinding output scanResult.findings
          let output2 := { output1 with messages := output1.messages ++ ["", ""] }
          let output3 := { output2 with error := some blockedMessage }
          (.ok (), output3, tr)

end Gitness

namespace GitnessBlob

/-- `GitObjectTypeBlob`. -/
def GitObjectTypeBlob : String := "blob"

/-- The observable behaviour of the cat-file batch channel for one request:
whether writing the sha line succeeds, the parsed batch header line
`(objectSHA, objectType, objectSize)` or its read error, and the byte stream
readable from stdout after the header. -/
structure BatchChannel (E : Type) where
  writeErr : Option E
  header : Except E (String × String × Int)
  payload : List Nat

/-- The four error return sites of `GetBlob`, in source order:
`fmt.Errorf("failed to write blob sha to git stdin: %w", err)`,
`processGitErrorf(err, "failed to read cat-file batch line")`,
`fmt.Errorf("cat-file returned object sha '%s' but expected '%s'", ...)`
(the protocol-mismatch kind) and
`errors.InvalidArgument("cat-file returned object type '%s' but expected '%s'", ...)`
(the unexpected-object-type kind). -/
inductive GetBlobErr (E : Type) where
  | writeFailed (e : E)
  | headerFailed (e : E)
  | shaMismatch (returned expected : String)
  | unexpectedObjectType (returned : String)
  deriving DecidableEq, Repr

/-- Discriminable kind of a `GetBlobErr`. -/
inductive GetBlobErrKind where
  | writeFailed
  | headerFailed
  | shaMismatch
  | unexpectedObjectType
  deriving DecidableEq, Repr

/-- The kind of an error value: the programmatic discriminator. -/
def GetBlobErr.kind {E : Type} : GetBlobErr E → GetBlobErrKind
  | .writeFailed _ => .writeFailed
  | .headerFailed _ => .headerFailed
  | .shaMismatch _ _ => .shaMismatch
  | .unexpectedObjectType _ => .unexpectedObjectType

/-- `limitReaderCloser`: `io.LimitReader(reader, limit)` plus a stop
function.  The remaining underlying stream and the remaining limit determine
every future read; the stop function is the channel's cancel. -/
structure limitReaderCloser where
  src : List Nat
  limit : Int
  deriving DecidableEq, Repr

/-- `newLimitReaderCloser(reader, limit, stop)`. -/
def newLimitReaderCloser (reader : List Nat) (limit : Int) : limitReaderCloser :=
  { src := reader, limit := limit }

/-- Reading the stream to exhaustion: `io.LimitReader` yields at most `limit`
bytes of the underlying stream (none when `limit <= 0`). -/
def limitReaderCloser.readAll (l : limitReaderCloser) : List Nat :=
  l.src.take l.limit.toNat

/-- Reading at most `n` bytes: the consumed prefix and the reader state left
behind. -/
def limitReaderCloser.readN (l : limitReaderCloser) (n : Nat) :
    List Nat × limitReaderCloser :=
  let k := min n l.limit.toNat
  (l.src.take k, { src := l.src.drop k, limit := l.limit - (k : Int) })

/-- `limitReaderCloser.Close`: `l.stop(); return nil`.  Returns the error
result (always `nil`) paired with whether the stop/cancel function was
invoked (always, independent of the read state). -/
def limitReaderCloser.close (_l : limitReaderCloser) : Option String × Bool :=
  (none, true)

/-- `BlobReader` of the Go source. -/
structure BlobReader where
  sha : String
  size : Int
  contentSize : Int
  content : limitReaderCloser
  deriving DecidableEq, Repr

/-- `(*Git).GetBlob`: write the sha line, read and validate the batch header,
bound the content size, return the limited reader.  The second component
records whether `cancel()` was invoked before returning (it is, on every
error path; on success the cancel is handed to the reader's `Close`). -/
def GetBlob {E : Type} (ch : BatchChannel E) (sha : String) (sizeLimit : Int) :
    Except (GetBlobErr E) BlobReader × Bool :=
  match ch.writeErr with
  | some e => (.error (.writeFailed e), true)
  | none =>
    match ch.header with
    | .error e => (.error (.headerFailed e), true)
    | .ok (objectSHA, objectType, objectSize) =>
      if objectSHA ≠ sha then
        (.error (.shaMismatch objectSHA sha), true)
      else if objectType ≠ GitObjectTypeBlob then
        (.error (.unexpectedObjectType objectType), true)
      else
        let contentSize :=
          if sizeLimit > 0 ∧ sizeLimit < objectSize then sizeLimit else objectSize
        (.ok { sha := sha
               size := objectSize
               contentSize := contentSize
               content := newLimitReaderCloser ch.payload contentSize }, false)

end GitnessBlob

namespace Gitness

/-! Concrete fixtures used to instantiate the theorems. -/

/-- A sample push environment. -/
def exEnv : Environment := { alternateObjectDirs := ["alt-dir"] }

/-- A sample repository. -/
def exRepo : Repository := { id := 7, gitUID := "repo-git-uid" }

/-- A sample pre-existing hook output. -/
def exOut : HookOutput := { messages := ["hello"], error := none }

/-- Update of an existing branch. -/
def ruMain : ReferenceUpdate :=
  { ref := "refs/heads/main", old := "aaaa", new := "bbbb" }

/-- Creation of a new branch. -/
def ruFeature : ReferenceUpdate :=
  { ref := "refs/heads/feature", old := NilSHA, new := "cccc" }

/-- Creation of a second new branch. -/
def ruFeature2 : ReferenceUpdate :=
  { ref := "refs/heads/feature2", old := NilSHA, new := "eeee" }

/-- Deletion of a branch. -/
def ruDelete : ReferenceUpdate :=
  { ref := "refs/heads/gone", old := "ffff", new := NilSHA }

/-- Collaborators with constant behaviours, over `E = F = String`. -/
def exCollab (settings : Except String Bool)
    (fallback : Except String (String × Bool))
    (scan : ScanSecretsParams → Except String (List String)) :
    Collaborators String String :=
  { settingsRepoGet := settings
    getBaseSHAForScanningChanges := fun _ _ _ => fallback
    scanSecretsCall := scan
    renderFinding := fun f => "finding: " ++ f }

/-- Input with the given reference updates in `exEnv`. -/
def inpOf (rus : List ReferenceUpdate) : GithookPreReceiveInput :=
  { refUpdates := rus, environment := exEnv }

/-- Collaborators: enabled, fallback resolves to `"dddd"`, scans find nothing. -/
def cFallback : Collaborators String String :=
  exCollab (.ok true) (.ok ("dddd", true)) (fun _ => .ok [])

/-- Collaborators: enabled, fallback resolves, every scan finds `"tok"`. -/
def cOneFinding : Collaborators String String :=
  exCollab (.ok true) (.ok ("dddd", true)) (fun _ => .ok ["tok"])

/-- Collaborators: scanning disabled. -/
def cDisabled : Collaborators String String :=
  exCollab (.ok false) (.ok ("dddd", true)) (fun _ => .ok [])

/-- Collaborators: settings lookup fails. -/
def cSettingsErr : Collaborators String String :=
  exCollab (.error "boom") (.ok ("dddd", true)) (fun _ => .ok [])

/-- Collaborators: enabled, but every scan call fails. -/
def cScanErr : Collaborators String String :=
  exCollab (.ok true) (.ok ("dddd", true)) (fun _ => .error "scanfail")

/-- The scan parameters `scanSecretsInternal` builds for `ruMain` in `exEnv`. -/
def pMain : ScanSecretsParams :=
  { readParams := { repoUID := "repo-git-uid", alternateObjectDirs := ["alt-dir"] }
    baseRev := "aaaa^{commit}"
    rev := "bbbb^{commit}" }

end Gitness

namespace GitnessBlob

/-- A healthy channel: header declares a 5-byte blob, payload holds the five
content bytes plus the trailing separator byte. -/
def chOk : BatchChannel String :=
  { writeErr := none
    header := .ok ("beefsha", "blob", 5)
    payload := [10, 20, 30, 40, 50, 0] }

/-- A channel answering with a different object id than requested. -/
def chBadSha : BatchChannel String :=
  { writeErr := none
    header := .ok ("othersha", "blob", 5)
    payload := [1, 2, 3, 4, 5, 0] }

/-- A channel answering with a tree instead of a blob. -/
def chTree : BatchChannel String :=
  { writeErr := none
    header := .ok ("beefsha", "tree", 5)
    payload := [1, 2, 3, 4, 5, 0] }

/-- A channel whose request write fails. -/
def chWriteErr : BatchChannel String :=
  { writeErr := some "pipe closed"
    header := .ok ("beefsha", "blob", 5)
    payload := [] }

/-- The blob reader `GetBlob` returns on `chOk` with size limit 3. -/
def brOk3 : BlobReader :=
  { sha := "beefsha"
    size := 5
    contentSize := 3
    content := { src := [10, 20, 30, 40, 50, 0], limit := 3 } }

end GitnessBlob

/-! Theorems. -/

namespace Gitness

lemma fallbackCount_append (a b : List GateEvent) :
    fallbackCount (a ++ b) = fallbackCount a + fallbackCount b := by
  simp [fallbackCount, List.countP_append]

lemma newRefScanBases_append (a b : List GateEvent) :
    newRefScanBases (a ++ b) = newRefScanBases a ++ newRefScanBases b := by
  simp [newRefScanBases]

/-- Once the fallback memo is resolved to `v`, the rest of the loop performs no
further fallback calls and every scan call for a newly created reference uses
`v` as its base revision. -/
lemma scanSecretsLoop_memo_some {E F : Type} (C : Collaborators E F) (repo : Repository)
    (env : Environment) (allUpdates : List ReferenceUpdate) (v : String) :
    ∀ (rest : List ReferenceUpdate) (acc : List F),
      fallbackCount (scanSecretsLoop C repo env allUpdates rest (some v) acc).2 = 0 ∧
      ∀ b ∈ newRefScanBases (scanSecretsLoop C repo env allUpdates rest (some v) acc).2,
        b = v := by
  intro rest
  induction rest with
  | nil => intro acc; simp [scanSecretsLoop, fallbackCount, newRefScanBases]
  | cons ru rest ih =>
    intro acc
    by_cases hdel : ru.new = NilSHA
    · simpa [scanSecretsLoop, hdel] using ih acc
    · by_cases hold : ru.old = NilSHA
      · simp only [scanSecretsLoop, hdel, hold, if_false, if_true, ite_true, ite_false]
        split
        · simp [fallbackCount, newRefScanBases, List.countP_cons, GateEvent.isFallback, hold]
        · constructor
          · simpa [fallbackCount_append, fallbackCount, List.countP_cons,
              GateEvent.isFallback] using (ih _).1
          · intro b hb
            simp [newRefScanBases_append, newRefScanBases, hold] at hb
            rcases hb with hb | hb
            · exact hb
            · exact (ih _).2 b (by simpa [newRefScanBases] using hb)
      · simp only [scanSecretsLoop, hdel, hold, if_false, if_true, ite_true, ite_false]
        split
        · simp [fallbackCount, newRefScanBases, List.countP_cons, GateEvent.isFallback, hold]
        · constructor
          · simpa [fallbackCount_append, fallbackCount, List.countP_cons,
              GateEvent.isFallback] using (ih _).1
          · intro b hb
            simp [newRefScanBases_append, newRefScanBases, hold] at hb
            exact (ih _).2 b (by simpa [newRefScanBases] using hb)

/-- With the fallback memo unresolved, the loop performs at most one fallback
call and all scan calls for newly created references share one base revision. -/
lemma scanSecretsLoop_memo_none {E F : Type} (C : Collaborators E F) (repo : Repository)
    (env : Environment) (allUpdates : List ReferenceUpdate) :
    ∀ (rest : List ReferenceUpdate) (acc : List F),
      fallbackCount (scanSecretsLoop C repo env allUpdates rest none acc).2 ≤ 1 ∧
      ∃ v, ∀ b ∈ newRefScanBases (scanSecretsLoop C repo env allUpdates rest none acc).2,
        b = v := by
  intro rest
  induction rest with
  | nil =>
    intro acc
    exact ⟨by simp [scanSecretsLoop, fallbackCount],
      "", by simp [scanSecretsLoop, newRefScanBases]⟩
  | cons ru rest ih =>
    intro acc
    by_cases hdel : ru.new = NilSHA
    · simpa [scanSecretsLoop, hdel] using ih acc
    · by_cases hold : ru.old = NilSHA
      · simp only [scanSecretsLoop, hdel, hold, if_false, if_true, ite_true, ite_false]
        rcases hF : C.getBaseSHAForScanningChanges env allUpdates ru with e | ⟨sha, avail⟩
        · simp only [hF]
          exact ⟨by simp [fallbackCount, List.countP_cons, GateEvent.isFallback],
            "", by simp [newRefScanBases]⟩
        · simp only [hF]
          split
          next e heq =>
            refine ⟨?_, if avail then sha else "", ?_⟩
            · simp [fallbackCount, List.countP_cons, GateEvent.isFallback]
            · intro b hb
              simp [newRefScanBases, hold] at hb
              exact hb
          next findings heq =>
            have hm := scanSecretsLoop_memo_some C repo env allUpdates
              (if avail then sha else "") rest
              (if findings.length = 0 then acc else acc ++ findings)
            refine ⟨?_, if avail then sha else "", ?_⟩
            · rw [fallbackCount_append, hm.1]
              simp [fallbackCount, List.countP_cons, GateEvent.isFallback]
            · intro b hb
              rw [newRefScanBases_append] at hb
              rcases List.mem_append.mp hb with hb | hb
              · simp [newRefScanBases, hold] at hb
                exact hb
              · exact hm.2 b hb
      · simp only [scanSecretsLoop, hdel, hold, if_false, if_true, ite_true, ite_false]
        split
        next e heq =>
          exact ⟨by simp [fallbackCount, List.countP_cons, GateEvent.isFallback],
            "", by simp [newRefScanBases, hold]⟩
        next findings heq =>
          refine ⟨?_, ?_⟩
          · simpa [fallbackCount_append, fallbackCount, List.countP_cons,
              GateEvent.isFallback] using (ih _).1
          · obtain ⟨v, hv⟩ := (ih (if findings.length = 0 then acc else acc ++ findings)).2
            refine ⟨v, ?_⟩
            intro b hb
            rw [newRefScanBases_append] at hb
            rcases List.mem_append.mp hb with hb | hb
            · simp [newRefScanBases, hold] at hb
            · exact hv b hb

/-- C1: during `scanSecretsInternal`, `GetBaseSHAForScanningChanges` is invoked
at most once per push, however many reference updates have `old == NilSHA`, and
every newly created reference's scan call reuses the one memoized base
revision (whether the fallback resolved to an id or to none). -/
theorem fallback_discovery_at_most_once {E F : Type} (C : Collaborators E F)
    (repo : Repository) (inp : GithookPreReceiveInput) :
    fallbackCount (scanSecretsInternal C repo inp).2 ≤ 1 ∧
    ∃ v, ∀ b ∈ newRefScanBases (scanSecretsInternal C repo inp).2, b = v := by
  have h := scanSecretsLoop_memo_none C repo inp.environment inp.refUpdates inp.refUpdates []
  simpa [scanSecretsInternal] using h

/-- C1 witness: a push creating two new branches makes at most one fallback
call and both scan calls reuse the memoized base. -/
theorem fallback_discovery_at_most_once_witness :
    fallbackCount (scanSecretsInternal cFallback exRepo (inpOf [ruFeature, ruFeature2])).2 ≤ 1 ∧
    ∃ v, ∀ b ∈ newRefScanBases
      (scanSecretsInternal cFallback exRepo (inpOf [ruFeature, ruFeature2])).2, b = v :=
  fallback_discovery_at_most_once cFallback exRepo (inpOf [ruFeature, ruFeature2])

lemma scanCalls_append (a b : List GateEvent) :
    scanCalls (a ++ b) = scanCalls a ++ scanCalls b := by
  simp [scanCalls]

/-- Every scan call issued by the loop uses `rev = new ++ "^{commit}"`, carries
the repository uid and alternate object dirs, and, for an existing reference,
uses `base = old ++ "^{commit}"`. -/
lemma scanSecretsLoop_scanCalls {E F : Type} (C : Collaborators E F) (repo : Repository)
    (env : Environment) (allUpdates : List ReferenceUpdate) :
    ∀ (rest : List ReferenceUpdate) (fb : Option String) (acc : List F),
      ∀ pr ∈ scanCalls (scanSecretsLoop C repo env allUpdates rest fb acc).2,
        pr.2.rev = pr.1.new ++ "^{commit}" ∧
        pr.2.readParams =
          { repoUID := repo.gitUID, alternateObjectDirs := env.alternateObjectDirs } ∧
        (¬ pr.1.old = NilSHA → pr.2.baseRev = pr.1.old ++ "^{commit}") := by
  intro rest
  induction rest with
  | nil => intro fb acc pr hpr; simp [scanSecretsLoop, scanCalls] at hpr
  | cons ru rest ih =>
    intro fb acc pr hpr
    by_cases hdel : ru.new = NilSHA
    · exact ih fb acc pr (by simpa [scanSecretsLoop, hdel] using hpr)
    · by_cases hold : ru.old = NilSHA
      · rcases fb with _ | v
        · simp only [scanSecretsLoop, hdel, hold, if_false, if_true, ite_true,
            ite_false] at hpr
          rcases hF : C.getBaseSHAForScanningChanges env allUpdates ru with e | ⟨sha, avail⟩
          · simp only [hF] at hpr
            simp [scanCalls] at hpr
          · simp only [hF] at hpr
            split at hpr
            next e heq =>
              simp [scanCalls] at hpr
              subst hpr
              exact ⟨rfl, rfl, fun hno => absurd hold hno⟩
            next findings heq =>
              rw [scanCalls_append] at hpr
              rcases List.mem_append.mp hpr with hpr | hpr
              · simp [scanCalls] at hpr
                subst hpr
                exact ⟨rfl, rfl, fun hno => absurd hold hno⟩
              · exact ih _ _ pr hpr
        · simp only [scanSecretsLoop, hdel, hold, if_false, if_true, ite_true,
            ite_false] at hpr
          split at hpr
          next e heq =>
            simp [scanCalls] at hpr
            subst hpr
            exact ⟨rfl, rfl, fun hno => absurd hold hno⟩
          next findings heq =>
            rw [scanCalls_append] at hpr
            rcases List.mem_append.mp hpr with hpr | hpr
            · simp [scanCalls] at hpr
              subst hpr
              exact ⟨rfl, rfl, fun hno => absurd hold hno⟩
            · exact ih _ _ pr hpr
      · simp only [scanSecretsLoop, hdel, hold, if_false, if_true, ite_true,
          ite_false] at hpr
        split at hpr
        next e heq =>
          simp [scanCalls] at hpr
          subst hpr
          exact ⟨rfl, rfl, fun _ => rfl⟩
        next findings heq =>
          rw [scanCalls_append] at hpr
          rcases List.mem_append.mp hpr with hpr | hpr
          · simp [scanCalls] at hpr
            subst hpr
            exact ⟨rfl, rfl, fun _ => rfl⟩
          · exact ih _ _ pr hpr

/-- C2 counterexample: updating `main` from `"aaaa"` to `"bbbb"` yields a
single scan call whose base revision is `"aaaa^{commit}"`, not the update's
old id `"aaaa"`, and whose rev is `"bbbb^{commit}"`, not the new id. -/
theorem scan_call_ranges_counterexample :
    scanCalls (scanSecretsInternal cFallback exRepo (inpOf [ruMain])).2 = [(ruMain, pMain)] ∧
    pMain.baseRev ≠ ruMain.old ∧ pMain.rev ≠ ruMain.new :=
  ⟨by decide, by decide, by decide⟩

/-- C2 (amended): every scan call uses `rev = new ++ "^{commit}"` and, for a
reference update with `old != NilSHA`, `base = old ++ "^{commit}"`; for a newly
created reference whose fallback resolves to commit `D`, the scan call uses
`base = D` exactly and `rev = new ++ "^{commit}"` (scenario: creating `feature`
with `new = "cccc"` after fallback `"dddd"` yields the scan call
`(base = "dddd", rev = "cccc^{commit}")`). -/
theorem scan_call_ranges {E F : Type} (C : Collaborators E F) (repo : Repository)
    (inp : GithookPreReceiveInput) :
    (∀ pr ∈ scanCalls (scanSecretsInternal C repo inp).2,
      pr.2.rev = pr.1.new ++ "^{commit}" ∧
      pr.2.readParams =
        { repoUID := repo.gitUID
          alternateObjectDirs := inp.environment.alternateObjectDirs } ∧
      (¬ pr.1.old = NilSHA → pr.2.baseRev = pr.1.old ++ "^{commit}")) ∧
    scanCalls (scanSecretsInternal cFallback exRepo (inpOf [ruFeature])).2 =
      [(ruFeature,
        { readParams := { repoUID := "repo-git-uid", alternateObjectDirs := ["alt-dir"] }
          baseRev := "dddd"
          rev := "cccc^{commit}" })] :=
  ⟨fun pr hpr => scanSecretsLoop_scanCalls C repo inp.environment inp.refUpdates
      inp.refUpdates none [] pr (by simpa [scanSecretsInternal] using hpr),
    by decide⟩

/-- C2 witness: for the concrete `main` update, the scan call's parameters are
the old and new ids peeled to commits. -/
theorem scan_call_ranges_witness :
    pMain.rev = ruMain.new ++ "^{commit}" ∧ pMain.baseRev = ruMain.old ++ "^{commit}" := by
  have h := (scan_call_ranges cFallback exRepo (inpOf [ruMain])).1 (ruMain, pMain) (by decide)
  exact ⟨h.1, h.2.2 (by decide)⟩

/-- No event in the loop's trace is generated for a deletion
(`new == NilSHA`). -/
lemma scanSecretsLoop_deletion_skipped {E F : Type} (C : Collaborators E F) (repo : Repository)
    (env : Environment) (allUpdates : List ReferenceUpdate) :
    ∀ (rest : List ReferenceUpdate) (fb : Option String) (acc : List F),
      ∀ ev ∈ (scanSecretsLoop C repo env allUpdates rest fb acc).2,
        ¬ ev.cur.new = NilSHA := by
  intro rest
  induction rest with
  | nil => intro fb acc ev hev; simp [scanSecretsLoop] at hev
  | cons ru rest ih =>
    intro fb acc ev hev
    by_cases hdel : ru.new = NilSHA
    · exact ih fb acc ev (by simpa [scanSecretsLoop, hdel] using hev)
    · by_cases hold : ru.old = NilSHA
      · rcases fb with _ | v
        · simp only [scanSecretsLoop, hdel, hold, if_false, if_true, ite_true,
            ite_false] at hev
          rcases hF : C.getBaseSHAForScanningChanges env allUpdates ru with e | ⟨sha, avail⟩
          · simp only [hF] at hev
            simp at hev
            subst hev
            simpa [GateEvent.cur] using hdel
          · simp only [hF] at hev
            split at hev
            next e heq =>
              simp at hev
              rcases hev with rfl | rfl
              · simpa [GateEvent.cur] using hdel
              · simpa [GateEvent.cur] using hdel
            next findings heq =>
              simp at hev
              rcases hev with rfl | rfl | hev
              · simpa [GateEvent.cur] using hdel
              · simpa [GateEvent.cur] using hdel
              · exact ih _ _ ev hev
        · simp only [scanSecretsLoop, hdel, hold, if_false, if_true, ite_true,
            ite_false] at hev
          split at hev
          next e heq =>
            simp at hev
            subst hev
            simpa [GateEvent.cur] using hdel
          next findings heq =>
            simp at hev
            rcases hev with rfl | hev
            · simpa [GateEvent.cur] using hdel
            · exact ih _ _ ev hev
      · simp only [scanSecretsLoop, hdel, hold, if_false, if_true, ite_true,
          ite_false] at hev
        split at hev
        next e heq =>
          simp at hev
          subst hev
          simpa [GateEvent.cur] using hdel
        next findings heq =>
          simp at hev
          rcases hev with rfl | hev
          · simpa [GateEvent.cur] using hdel
          · exact ih _ _ ev hev

/-- A run over deletions only does nothing: no events, findings unchanged. -/
lemma scanSecretsLoop_all_deletions {E F : Type} (C : Collaborators E F) (repo : Repository)
    (env : Environment) (allUpdates : List ReferenceUpdate) :
    ∀ (rest : List ReferenceUpdate) (fb : Option String) (acc : List F),
      (∀ ru ∈ rest, ru.new = NilSHA) →
      scanSecretsLoop C repo env allUpdates rest fb acc = (.ok acc, []) := by
  intro rest
  induction rest with
  | nil => intro fb acc _; simp [scanSecretsLoop]
  | cons ru rest ih =>
    intro fb acc h
    have hdel : ru.new = NilSHA := h ru (by simp)
    simpa [scanSecretsLoop, hdel] using
      ih fb acc (fun r hr => h r (by simp [hr]))

/-- C5: for every reference update whose new id is `NilSHA` (a deletion),
`scanSecretsInternal` performs neither a scan call nor a fallback call for that
update; a push containing only deletions performs zero calls of either kind
and returns an empty result. -/
theorem deletions_not_scanned {E F : Type} (C : Collaborators E F) (repo : Repository)
    (inp : GithookPreReceiveInput) :
    (∀ ev ∈ (scanSecretsInternal C repo inp).2, ¬ ev.cur.new = NilSHA) ∧
    ((∀ ru ∈ inp.refUpdates, ru.new = NilSHA) →
      scanSecretsInternal C repo inp = (.ok ⟨[]⟩, [])) := by
  constructor
  · intro ev hev
    exact scanSecretsLoop_deletion_skipped C repo inp.environment inp.refUpdates
      inp.refUpdates none [] ev (by simpa [scanSecretsInternal] using hev)
  · intro h
    have hl := scanSecretsLoop_all_deletions C repo inp.environment inp.refUpdates
      inp.refUpdates none [] h
    simp [scanSecretsInternal, hl, Except.map]

/-- C5 witness: a push deleting one branch makes no calls and finds nothing. -/
theorem deletions_not_scanned_witness :
    scanSecretsInternal cFallback exRepo (inpOf [ruDelete]) = (.ok ⟨[]⟩, []) :=
  (deletions_not_scanned cFallback exRepo (inpOf [ruDelete])).2 (by decide)

/-- C6: if the enable setting resolves to false, `scanSecrets` returns a nil
error immediately, performs no fallback or scan call, and leaves the output
unmodified. -/
theorem scanning_disabled_no_calls {E F : Type} (C : Collaborators E F) (repo : Repository)
    (inp : GithookPreReceiveInput) (output : HookOutput)
    (h : C.settingsRepoGet = .ok false) :
    scanSecrets C repo inp output = (.ok (), output, []) := by
  simp [scanSecrets, h]

/-- C6 witness: concrete disabled-settings run. -/
theorem scanning_disabled_no_calls_witness :
    scanSecrets cDisabled exRepo (inpOf [ruMain]) exOut = (.ok (), exOut, []) :=
  scanning_disabled_no_calls cDisabled exRepo (inpOf [ruMain]) exOut rfl

/-- C7: a failing settings lookup makes `scanSecrets` return a wrapped error
with no collaborator call and the output untouched; a failing fallback or scan
call aborts the whole evaluation with a wrapped error and no block decision. -/
theorem evaluation_errors_propagate {E F : Type} (C : Collaborators E F) (repo : Repository)
    (inp : GithookPreReceiveInput) (output : HookOutput) :
    (∀ e, C.settingsRepoGet = .error e →
      scanSecrets C repo inp output = (.error (.settingsFailed e), output, [])) ∧
    (∀ e, C.settingsRepoGet = .ok true → (scanSecretsInternal C repo inp).1 = .error e →
      scanSecrets C repo inp output =
        (.error (.scanFailed e), output, (scanSecretsInternal C repo inp).2)) := by
  constructor
  · intro e he
    simp [scanSecrets, he]
  · intro e hs hi
    rcases hI : scanSecretsInternal C repo inp with ⟨r, tr⟩
    rw [hI] at hi
    simp at hi
    subst hi
    simp [scanSecrets, hs, hI]

/-- C7 witness: a settings failure and a scan failure, both aborting with a
wrapped error and the output unchanged. -/
theorem evaluation_errors_propagate_witness :
    scanSecrets cSettingsErr exRepo (inpOf [ruMain]) exOut =
      (.error (.settingsFailed "boom"), exOut, []) ∧
    scanSecrets cScanErr exRepo (inpOf [ruMain]) exOut =
      (.error (.scanFailed (.detectFailed "scanfail")), exOut,
        (scanSecretsInternal cScanErr exRepo (inpOf [ruMain])).2) :=
  ⟨(evaluation_errors_propagate cSettingsErr exRepo (inpOf [ruMain]) exOut).1 "boom" rfl,
    (evaluation_errors_propagate cScanErr exRepo (inpOf [ruMain]) exOut).2
      (.detectFailed "scanfail") rfl rfl⟩

/-- C9: `scanSecrets` modifies the output only in the single outcome where
scanning is enabled, the internal scan succeeded, and at least one finding was
returned; in every other outcome the output is returned exactly as on entry. -/
theorem output_frame_condition {E F : Type} (C : Collaborators E F) (repo : Repository)
    (inp : GithookPreReceiveInput) (output : HookOutput) :
    (scanSecrets C repo inp output).2.1 = output ∨
    (C.settingsRepoGet = .ok true ∧
      ∃ res, (scanSecretsInternal C repo inp).1 = .ok res ∧ res.findings ≠ []) := by
  rcases hs : C.settingsRepoGet with e | b
  · left
    simp [scanSecrets, hs]
  · cases b
    · left
      simp [scanSecrets, hs]
    · rcases hI : scanSecretsInternal C repo inp with ⟨r, tr⟩
      rcases r with e | res
      · left
        simp [scanSecrets, hs, hI]
      · by_cases hf : res.findings = []
        · left
          simp [scanSecrets, hs, hI, scanSecretsResult.HasResults, hf]
        · right
          exact ⟨rfl, res, by simp [hI], hf⟩

/-- C9 witness: with zero findings the output comes back exactly as it went in. -/
theorem output_frame_condition_witness :
    (scanSecrets cFallback exRepo (inpOf [ruMain]) exOut).2.1 = exOut ∨
    (cFallback.settingsRepoGet = .ok true ∧
      ∃ res, (scanSecretsInternal cFallback exRepo (inpOf [ruMain])).1 = .ok res ∧
        res.findings ≠ []) :=
  output_frame_condition cFallback exRepo (inpOf [ruMain]) exOut

/-- C3: whenever the scan produced at least one finding, `scanSecrets` sets the
output's error field to the fixed blocking string, appends the formatted
findings followed by two blank separator messages, and returns a nil error. -/
theorem findings_block_via_output {E F : Type} (C : Collaborators E F) (repo : Repository)
    (inp : GithookPreReceiveInput) (output : HookOutput)
    (res : scanSecretsResult F) (tr : List GateEvent)
    (hs : C.settingsRepoGet = .ok true)
    (hi : scanSecretsInternal C repo inp = (.ok res, tr))
    (hf : res.findings ≠ []) :
    scanSecrets C repo inp output =
      (.ok (),
        { messages := output.messages ++ res.findings.map C.renderFinding ++ ["", ""]
          error := some blockedMessage },
        tr) := by
  have hres : res.HasResults = true := by
    simp [scanSecretsResult.HasResults, List.length_pos, hf]
  simp [scanSecrets, hs, hi, hres, printScanSecretsFindings]

/-- C3 witness: one finding blocks the push through the output value only. -/
theorem findings_block_via_output_witness :
    scanSecrets cOneFinding exRepo (inpOf [ruMain]) exOut =
      (.ok (),
        { messages := exOut.messages ++
            (scanSecretsResult.mk ["tok"]).findings.map cOneFinding.renderFinding ++ ["", ""]
          error := some blockedMessage },
        [.scanCall ruMain pMain]) :=
  findings_block_via_output cOneFinding exRepo (inpOf [ruMain]) exOut ⟨["tok"]⟩
    [.scanCall ruMain pMain] rfl rfl (by decide)

end Gitness

namespace GitnessBlob

/-- C4: on every successful `GetBlob`, `ContentSize = min(Size, sizeLimit)`
when `sizeLimit > 0` and `ContentSize = Size` otherwise, and — under the wire
contract that the declared size is nonnegative and at least that many payload
bytes follow the header — the content stream yields exactly `ContentSize`
bytes. -/
theorem getBlob_content_size {E : Type} (ch : BatchChannel E) (sha : String)
    (sizeLimit : Int) (br : BlobReader)
    (hok : (GetBlob ch sha sizeLimit).1 = .ok br)
    (hnn : 0 ≤ br.size)
    (hwire : br.size.toNat ≤ ch.payload.length) :
    (br.contentSize = if 0 < sizeLimit then min br.size sizeLimit else br.size) ∧
    (br.content.readAll.length : Int) = br.contentSize := by
  rcases hw : ch.writeErr with _ | e
  · rcases hh : ch.header with e | ⟨oSHA, oType, oSize⟩
    · simp [GetBlob, hw, hh] at hok
    · by_cases hsha : oSHA = sha
      · by_cases htype : oType = GitObjectTypeBlob
        · simp [GetBlob, hw, hh, hsha, htype] at hok
          subst hok
          simp only [limitReaderCloser.readAll, newLimitReaderCloser, List.length_take]
          simp only [GetBlob] at hnn hwire ⊢
          constructor
          · split_ifs <;> omega
          · split_ifs at hnn hwire ⊢ <;> omega
        · simp [GetBlob, hw, hh, hsha, htype] at hok
      · simp [GetBlob, hw, hh, hsha] at hok
  · simp [GetBlob, hw] at hok

/-- C4 witness: a 5-byte blob read with limit 3 delivers exactly 3 bytes. -/
theorem getBlob_content_size_witness :
    (brOk3.contentSize = if (0 : Int) < 3 then min brOk3.size 3 else brOk3.size) ∧
    (brOk3.content.readAll.length : Int) = brOk3.contentSize :=
  getBlob_content_size chOk "beefsha" 3 brOk3 rfl (by decide) (by decide)

/-- C8: a header object id differing from the requested one makes `GetBlob`
fail with the protocol-mismatch error, a non-blob header type makes it fail
with the unexpected-object-type error, and the four failure kinds of `GetBlob`
(write/transport, header read, id mismatch, type mismatch) are pairwise
programmatically distinguishable. -/
theorem getBlob_error_kinds {E : Type} (ch : BatchChannel E) (sha : String)
    (sizeLimit : Int) (oSHA oType : String) (oSize : Int)
    (hw : ch.writeErr = none) (hh : ch.header = .ok (oSHA, oType, oSize)) :
    (oSHA ≠ sha → (GetBlob ch sha sizeLimit).1 = .error (.shaMismatch oSHA sha)) ∧
    (oSHA = sha → oType ≠ GitObjectTypeBlob →
      (GetBlob ch sha sizeLimit).1 = .error (.unexpectedObjectType oType)) ∧
    (∀ e e' : E, ∀ a b c : String,
      (GetBlobErr.shaMismatch a b : GetBlobErr E).kind ≠
        (GetBlobErr.unexpectedObjectType c : GetBlobErr E).kind ∧
      (GetBlobErr.shaMismatch a b : GetBlobErr E).kind ≠
        (GetBlobErr.headerFailed e : GetBlobErr E).kind ∧
      (GetBlobErr.shaMismatch a b : GetBlobErr E).kind ≠
        (GetBlobErr.writeFailed e : GetBlobErr E).kind ∧
      (GetBlobErr.unexpectedObjectType c : GetBlobErr E).kind ≠
        (GetBlobErr.headerFailed e : GetBlobErr E).kind ∧
      (GetBlobErr.unexpectedObjectType c : GetBlobErr E).kind ≠
        (GetBlobErr.writeFailed e : GetBlobErr E).kind ∧
      (GetBlobErr.headerFailed e : GetBlobErr E).kind ≠
        (GetBlobErr.writeFailed e' : GetBlobErr E).kind) := by
  refine ⟨?_, ?_, ?_⟩
  · intro hne
    simp [GetBlob, hw, hh, hne]
  · intro heq hne
    simp [GetBlob, hw, hh, heq, hne]
  · intro e e' a b c
    simp [GetBlobErr.kind]

/-- C8 witness: concrete mismatched-id and mismatched-type responses produce
the two distinct error kinds. -/
theorem getBlob_error_kinds_witness :
    (GetBlob chBadSha "beefsha" 0).1 = .error (.shaMismatch "othersha" "beefsha") ∧
    (GetBlob chTree "beefsha" 0).1 = .error (.unexpectedObjectType "tree") :=
  ⟨(getBlob_error_kinds chBadSha "beefsha" 0 "othersha" "blob" 5 rfl rfl).1 (by decide),
    (getBlob_error_kinds chTree "beefsha" 0 "beefsha" "tree" 5 rfl rfl).2.1 rfl (by decide)⟩

/-- C10: every error return of `GetBlob` invokes the cancel function before
returning; on success, `Close` on the content stream always invokes the
stop/cancel function and returns a nil error, regardless of how many bytes
were consumed from the stream first. -/
theorem getBlob_releases_resources {E : Type} (ch : BatchChannel E) (sha : String)
    (sizeLimit : Int) :
    (∀ e : GetBlobErr E, (GetBlob ch sha sizeLimit).1 = .error e →
      (GetBlob ch sha sizeLimit).2 = true) ∧
    (∀ br : BlobReader, (GetBlob ch sha sizeLimit).1 = .ok br →
      ∀ n : Nat, ((br.content.readN n).2).close = (none, true) ∧
        br.content.close = (none, true)) := by
  constructor
  · intro e he
    rcases hw : ch.writeErr with _ | we
    · rcases hh : ch.header with e' | ⟨oSHA, oType, oSize⟩
      · simp [GetBlob, hw, hh]
      · by_cases hsha : oSHA = sha
        · by_cases htype : oType = GitObjectTypeBlob
          · simp [GetBlob, hw, hh, hsha, htype] at he
          · simp [GetBlob, hw, hh, hsha, htype]
        · simp [GetBlob, hw, hh, hsha]
    · simp [GetBlob, hw]
  · intro br _ n
    exact ⟨rfl, rfl⟩

/-- C10 witness: a failed write cancels immediately; a successful read's stream
can be closed after a partial read, invoking the stop and returning nil. -/
theorem getBlob_releases_resources_witness :
    (GetBlob chWriteErr "beefsha" 3).2 = true ∧
    ((brOk3.content.readN 2).2).close = (none, true) ∧
    brOk3.content.close = (none, true) :=
  ⟨(getBlob_releases_resources chWriteErr "beefsha" 3).1 (.writeFailed "pipe closed") rfl,
    (getBlob_releases_resources chOk "beefsha" 3).2 brOk3 rfl 2⟩

end GitnessBlob

